import Mathlib

/-!
Verification of the SQL statement dispatcher of the zerodb repository
(src/sql_query/mod.rs) against its natural-language specification.

The dispatcher itself (`handle_sql_query`, `SQLQuery::new`) is embedded
directly from the source. The collaborators `Database`, `Table`, `Column`
and the translators `CreateQuery` / `InsertQuery` live in modules of the
repository that are not part of the given source tree; they are modelled
from the specification (sections 3, 4.2-4.4 and 6) and marked as such.
The external SQL parser is a black box: `handle_sql_query` is embedded as
a function of the statement list the parser produced. A Rust panic
(`unwrap` on `None`) is modelled as the result `none` of an `Option`.
-/

/-- Modelled from the spec (section 3): a scalar value stored in a row;
equality is the natural equality of the declared type. -/
inductive Value where
  | integer (i : Int)
  | text (s : String)
  | boolean (b : Bool)
deriving DecidableEq, Repr

/-- Modelled from the spec (section 3): the enumerated declared type of a
column. -/
inductive ColumnType where
  | integer
  | text
  | boolean
deriving DecidableEq, Repr

/-- Modelled from the spec (section 3): a column definition, missing from
the given sources (crate::table). Name, declared type and constraint
flags; primary key implies unique. Immutable once the table is created. -/
structure Column where
  name : String
  ctype : ColumnType
  is_unique : Bool
  is_primary_key : Bool
deriving DecidableEq, Repr

/-- Modelled from the spec (section 3): a column counts as unique for the
constraint check when it is flagged unique or primary key. -/
def Column.isUniqueFlag (c : Column) : Bool :=
  c.is_unique || c.is_primary_key

/-- Modelled from the spec (sections 3 and 4.3c): a row is an ordered
sequence of values positionally aligned with the column order; positions
of columns not named in an insert are not populated. -/
def Row : Type := List (Option Value)

instance : DecidableEq Row := by
  unfold Row
  infer_instance

/-- Modelled from the spec (section 3): a table owns its ordered schema
and its rows in insertion order; missing from the given sources
(crate::table). -/
structure Table where
  columns : List Column
  rows : List Row
deriving DecidableEq

/-- Modelled from the spec (section 6, Table collaborator contract):
`hasColumn(name)` tests whether the schema has a column of that name. -/
def Table.has_column (t : Table) (name : String) : Bool :=
  t.columns.any (fun c => c.name == name)

/-- Position of the column with the given name in the schema, if any. -/
def Table.columnIndex (t : Table) (name : String) : Option Nat :=
  t.columns.findIdx? (fun c => c.name == name)

/-- Modelled from the spec (section 4.4): scan of one (target column,
candidate value) pair after another; for a pair whose column is flagged
unique, every existing row value at that position is compared with the
candidate value, and any hit is a violation. -/
def Table.checkPairs (t : Table) : List (String × Value) → Except String Unit
  | [] => Except.ok ()
  | (n, v) :: rest =>
    match t.columnIndex n with
    | none => t.checkPairs rest
    | some i =>
      match t.columns.get? i with
      | none => t.checkPairs rest
      | some c =>
        if c.isUniqueFlag then
          if t.rows.any (fun r => r.get? i == some (some v)) then
            Except.error ("duplicate value in unique column " ++ n)
          else t.checkPairs rest
        else t.checkPairs rest

/-- Modelled from the spec (sections 4.4 and 6):
`checkUniqueConstraint(columnNames, values)`, missing from the given
sources (crate::table). Pairs each target column with the candidate value
at the corresponding position and scans the pairs. -/
def Table.check_unique_constraint (t : Table) (names : List String)
    (values : List Value) : Except String Unit :=
  t.checkPairs (names.zip values)

/-- Modelled from the spec (section 4.3c): the new row built from one
value tuple, mapping each value to its column position; columns not named
in the target list are not populated. -/
def mkRow (columns : List Column) (names : List String)
    (values : List Value) : Row :=
  columns.map (fun c =>
    match names.findIdx? (fun n => n == c.name) with
    | none => none
    | some j => values.get? j)

/-- Modelled from the spec (sections 4.3c and 6):
`insertRow(columnNames, values)`, missing from the given sources
(crate::table). Appends the new row, keeping insertion order. -/
def Table.insert_row (t : Table) (names : List String)
    (values : List Value) : Table :=
  { t with rows := t.rows ++ [mkRow t.columns names values] }

/-- Modelled from the spec (section 3): the validated output of the
CREATE TABLE translator, missing from the given sources
(query::create). Table name plus the ordered column list. -/
structure CreateQuery where
  table_name : String
  columns : List Column
deriving DecidableEq

/-- Modelled from the spec (sections 3 and 4.2): `Table::new` constructs
a table from the CreateQuery column list, preserving declaration order,
with no rows; missing from the given sources (crate::table). -/
def Table.new (q : CreateQuery) : Table :=
  { columns := q.columns, rows := [] }

/-- Modelled from the spec (section 3): the validated output of the
INSERT translator, missing from the given sources (query::insert). Table
name, target column names as named in the statement, and one or more
value tuples. -/
structure InsertQuery where
  table_name : String
  table_column_names : List String
  table_column_values : List (List Value)
deriving DecidableEq

/-- Modelled from the spec (sections 3 and 6): the database owns a
mapping from table name to table; missing from the given sources
(crate::database). Embedded as an association list keyed by name. -/
structure Database where
  tables : List (String × Table)
deriving DecidableEq

/-- Modelled from the spec (sections 4.2 and 6): `hasTable(name)`,
a case-sensitive exact-match lookup. -/
def Database.has_table (db : Database) (name : String) : Bool :=
  db.tables.any (fun p => p.1 == name)

/-- Modelled from the spec (section 6): lookup of the table registered
under a name; the read counterpart of `getTableMutable`. -/
def Database.getTable (db : Database) (name : String) : Option Table :=
  (db.tables.find? (fun p => p.1 == name)).map (fun p => p.2)

/-- Modelled from the spec (sections 4.2 and 6): `tables.insert` of the
registry (hash-map semantics): an existing entry under the name is
replaced in place, otherwise the entry is appended. Also models the
write-back of a mutation made through `getTableMutable`. -/
def Database.insertTable (db : Database) (name : String) (t : Table) :
    Database :=
  if db.has_table name then
    ⟨db.tables.map (fun p => if p.1 == name then (name, t) else p)⟩
  else
    ⟨db.tables ++ [(name, t)]⟩

/-- Errors of the dispatcher, from crate::error as used in
src/sql_query/mod.rs: the parser error wrapper, the catch-all internal
error carrying a message, and the not-implemented marker. -/
inductive NollaDBError where
  | SQLParseError (msg : String)
  | Internal (msg : String)
  | ToBeImplemented (msg : String)
deriving DecidableEq

/-- One parsed SQL statement, the relevant shape of sqlparser::ast::
Statement for the dispatcher. The translator calls `CreateQuery::new` /
`InsertQuery::new` are external to the given sources, so a CreateTable or
Insert node is abstracted as the outcome of its translation (`Except.ok`
a validated query, `Except.error` for a malformed AST). -/
inductive Statement where
  | CreateTable (translated : Except NollaDBError CreateQuery)
  | Query
  | Insert (translated : Except NollaDBError InsertQuery)
  | Update
  | Delete
  | Other

/-- The error message built at src/sql_query/mod.rs lines 50-55 for a
multi-statement input, carrying the statement count. -/
def multiStmtMsg (n : Nat) : String :=
  "Expected a single SQL query statement\n            , but here are \x27"
    ++ toString n
    ++ "\x27 SQL query statements,\n            we now only support one single SQL query in typing"

/-- The per-tuple loop of the Insert arm, src/sql_query/mod.rs lines
132-159: for each value tuple in source order, check arity, then the
unique constraint against the current table, then append the row; the
first failure stops the loop with the corresponding error, keeping the
table state reached so far. -/
def processTuples (names : List String) (t : Table) :
    List (List Value) → Table × Option NollaDBError
  | [] => (t, none)
  | v :: vs =>
    if v.length ≠ names.length then
      (t, some (NollaDBError.Internal
        (toString v.length ++ " values for " ++ toString names.length
          ++ " columns")))
    else
      match t.check_unique_constraint names v with
      | Except.error e =>
        (t, some (NollaDBError.Internal
          ("Unique key constraint violation: " ++ e)))
      | Except.ok _ => processTuples names (t.insert_row names v) vs

/-- The match on the single popped statement, src/sql_query/mod.rs lines
63-188. Mutations through the `&mut Database` are made explicit by
returning the database; the result `none` models a panic. -/
def handleStatement (statement : Statement) (db : Database) :
    Option (Except NollaDBError String × Database) :=
  match statement with
  | Statement.CreateTable translated =>
    match translated with
    | Except.error e => some (Except.error e, db)
    | Except.ok create_query =>
      if db.has_table create_query.table_name then
        some (Except.error (NollaDBError.Internal
          ("Can not create table, because table \x27"
            ++ create_query.table_name ++ "\x27 already exists")), db)
      else
        some (Except.ok "CREATE TABLE statement done",
          db.insertTable create_query.table_name (Table.new create_query))
  | Statement.Query => some (Except.ok "SELECT statement done", db)
  | Statement.Insert translated =>
    match translated with
    | Except.error e => some (Except.error e, db)
    | Except.ok insert_query =>
      if !(db.has_table insert_query.table_name) then
        some (Except.error (NollaDBError.Internal
          ("Table \x27" ++ insert_query.table_name
            ++ "\x27 does not exist")), db)
      else
        match db.getTable insert_query.table_name with
        | none => none
        | some table =>
          if !(insert_query.table_column_names.all
                (fun column_name => table.has_column column_name)) then
            some (Except.error (NollaDBError.Internal
              "Can not insert, because some of the columns do not exist"),
              db)
          else
            let res := processTuples insert_query.table_column_names table
              insert_query.table_column_values
            let db2 := db.insertTable insert_query.table_name res.1
            match res.2 with
            | some e => some (Except.error e, db2)
            | none => some (Except.ok "INSERT statement done", db2)
  | Statement.Update => some (Except.ok "UPDATE statement done", db)
  | Statement.Delete => some (Except.ok "UPDATE statement done", db)
  | Statement.Other =>
    some (Except.error (NollaDBError.ToBeImplemented
      "Other SQL statement will to be implemented soon"))
      |>.map (fun r => (r, db))

/-- The dispatcher, src/sql_query/mod.rs lines 39-192, taking the
statement list produced by the black-box parser. More than one statement
is rejected with the counting message; then `ast.pop().unwrap()` takes
the last (hence only) statement and panics (`none`) when the list is
empty. -/
def handle_sql_query (ast : List Statement) (db : Database) :
    Option (Except NollaDBError String × Database) :=
  if ast.length > 1 then
    some (Except.error (NollaDBError.SQLParseError
      (multiStmtMsg ast.length)), db)
  else
    match ast.getLast? with
    | none => none
    | some statement => handleStatement statement db

/-- The legacy classification enum, src/sql_query/mod.rs lines 14-22. -/
inductive SQLQuery where
  | CreateTable (command : String)
  | Select (command : String)
  | Insert (command : String)
  | Update (command : String)
  | Delete (command : String)
  | Unknown (command : String)
deriving DecidableEq, Repr

/-- The Unicode White_Space property, the separator set of Rust
`char::is_whitespace` and hence of `str::split_whitespace`: tab through
carriage return (U+0009-U+000D, including vertical tab and form feed),
space, next line (U+0085), no-break space (U+00A0), ogham space mark
(U+1680), the U+2000-U+200A spaces, line and paragraph separators
(U+2028, U+2029), narrow no-break space (U+202F), medium mathematical
space (U+205F) and ideographic space (U+3000). -/
def isRustWhitespace (c : Char) : Bool :=
  (0x9 ≤ c.toNat && c.toNat ≤ 0xd) || c.toNat = 0x20 || c.toNat = 0x85
    || c.toNat = 0xa0 || c.toNat = 0x1680
    || (0x2000 ≤ c.toNat && c.toNat ≤ 0x200a)
    || c.toNat = 0x2028 || c.toNat = 0x2029 || c.toNat = 0x202f
    || c.toNat = 0x205f || c.toNat = 0x3000

/-- Splitting on Unicode whitespace with empty pieces dropped, the
semantics of Rust `str::split_whitespace`; the accumulator holds the
current word in reverse. -/
def wordsAux : List Char → List Char → List (List Char)
  | [], acc => if acc = [] then [] else [acc.reverse]
  | c :: cs, acc =>
    if isRustWhitespace c then
      if acc = [] then wordsAux cs []
      else acc.reverse :: wordsAux cs []
    else wordsAux cs (c :: acc)

/-- The whitespace-separated tokens of a command string, as collected at
src/sql_query/mod.rs line 26. -/
def argsOf (command : String) : List String :=
  (wordsAux command.data []).map (fun w => String.mk w)

/-- `SQLQuery::new`, src/sql_query/mod.rs lines 25-36: classify by the
first whitespace-separated token. `args[0]` panics when there is no
token; the panic is modelled as `none`. -/
def SQLQuery.new (command : String) : Option SQLQuery :=
  let args := argsOf command
  match args.get? 0 with
  | none => none
  | some first_cmd =>
    some (match first_cmd with
      | "create" => SQLQuery.CreateTable command
      | "select" => SQLQuery.Select command
      | "insert" => SQLQuery.Insert command
      | "update" => SQLQuery.Update command
      | "delete" => SQLQuery.Delete command
      | _ => SQLQuery.Unknown command)

/-- The ways one value tuple can fail its per-tuple checks against a
given table state, with the error the loop reports: arity mismatch
carrying both counts, or a unique-constraint violation found by scanning
the rows of that table state. -/
def tupleFails (names : List String) (t : Table) (v : List Value)
    (e : NollaDBError) : Prop :=
  (v.length ≠ names.length ∧
    e = NollaDBError.Internal
      (toString v.length ++ " values for " ++ toString names.length
        ++ " columns"))
  ∨ (v.length = names.length ∧ ∃ s,
      t.check_unique_constraint names v = Except.error s ∧
      e = NollaDBError.Internal ("Unique key constraint violation: " ++ s))

/-- The schema of the `users` table of the scenario in section 8 of the
spec: an integer unique `id` column and a text `name` column. -/
def usersCols : List Column :=
  [⟨"id", ColumnType.integer, true, false⟩,
   ⟨"name", ColumnType.text, false, false⟩]

/-- The freshly created `users` table with no rows. -/
def usersTable0 : Table :=
  { columns := usersCols, rows := [] }

/-- The `users` table after the first tuple (1, a) committed. -/
def usersTable1 : Table :=
  { columns := usersCols,
    rows := [[some (Value.integer 1), some (Value.text "a")]] }

/-- A database holding just the empty `users` table. -/
def usersDb : Database :=
  ⟨[("users", usersTable0)]⟩

/-- The translated insert of the section 8 scenario:
INSERT INTO users (id, name) VALUES (1, a), (1, b). -/
def iqUsers : InsertQuery :=
  ⟨"users", ["id", "name"],
    [[Value.integer 1, Value.text "a"],
     [Value.integer 1, Value.text "b"]]⟩

/-- The error reported for the second tuple of the scenario. -/
def errUsers : NollaDBError :=
  NollaDBError.Internal
    "Unique key constraint violation: duplicate value in unique column id"

/-! ## Helper lemmas -/

theorem handle_single (s : Statement) (db : Database) :
    handle_sql_query [s] db = handleStatement s db := by
  unfold handle_sql_query
  rw [if_neg (by simp)]
  rfl

theorem find?_map_replace (name : String) (t : Table) :
    ∀ (l : List (String × Table)),
    l.any (fun p => p.1 == name) = true →
    (l.map (fun p => if p.1 == name then (name, t) else p)).find?
      (fun p => p.1 == name) = some (name, t) := by
  intro l
  induction l with
  | nil => intro h; simp at h
  | cons p ps ih =>
    intro h
    by_cases hp : (p.1 == name) = true
    · simp only [List.map_cons, if_pos hp]
      exact List.find?_cons_of_pos _ (by simp)
    · simp only [List.any_cons, Bool.or_eq_true] at h
      rcases h with h | h
      · exact absurd h hp
      · simp only [List.map_cons, if_neg hp]
        rw [List.find?_cons_of_neg _ (by simp [hp])]
        exact ih h

theorem find?_append_new (name : String) (t : Table) :
    ∀ (l : List (String × Table)),
    l.any (fun p => p.1 == name) = false →
    (l ++ [(name, t)]).find? (fun p => p.1 == name) = some (name, t) := by
  intro l
  induction l with
  | nil => simp
  | cons p ps ih =>
    intro h
    simp only [List.any_cons, Bool.or_eq_false_iff] at h
    rw [List.cons_append, List.find?_cons_of_neg _ (by simp [h.1])]
    exact ih h.2

theorem getTable_insertTable_self (db : Database) (name : String)
    (t : Table) : (db.insertTable name t).getTable name = some t := by
  unfold Database.insertTable
  by_cases h : db.has_table name = true
  · rw [if_pos h]
    unfold Database.getTable
    rw [find?_map_replace name t db.tables h]
    rfl
  · rw [if_neg h]
    unfold Database.getTable
    rw [find?_append_new name t db.tables (by
      unfold Database.has_table at h
      exact Bool.eq_false_iff.mpr h)]
    rfl

theorem has_table_of_getTable (db : Database) (name : String) (t : Table)
    (h : db.getTable name = some t) : db.has_table name = true := by
  unfold Database.getTable at h
  unfold Database.has_table
  rcases hf : db.tables.find? (fun p => p.1 == name) with _ | pr
  · rw [hf] at h; simp at h
  · rw [List.any_eq_true]
    have hp := List.find?_some hf
    exact ⟨pr, List.mem_of_find?_eq_some hf, hp⟩

theorem insert_row_columns (t : Table) (names : List String)
    (v : List Value) : (t.insert_row names v).columns = t.columns := rfl

theorem processTuples_error_spine (names : List String) :
    ∀ (vs : List (List Value)) (t t' : Table) (e : NollaDBError),
    processTuples names t vs = (t', some e) →
    ∃ k, ∃ hk : k < vs.length,
      processTuples names t (vs.take k) = (t', none) ∧
      t'.columns = t.columns ∧
      t'.rows = t.rows ++ (vs.take k).map (mkRow t.columns names) ∧
      tupleFails names t' (vs.get ⟨k, hk⟩) e := by
  intro vs
  induction vs with
  | nil => intro t t' e h; simp [processTuples] at h
  | cons v vs ih =>
    intro t t' e h
    unfold processTuples at h
    by_cases hlen : v.length ≠ names.length
    · rw [if_pos hlen] at h
      simp only [Prod.mk.injEq, Option.some.injEq] at h
      obtain ⟨h1, h2⟩ := h
      subst h1
      refine ⟨0, Nat.succ_pos _, by simp [processTuples], rfl, by simp, ?_⟩
      exact Or.inl ⟨hlen, h2.symm⟩
    · rw [if_neg hlen] at h
      push_neg at hlen
      rcases hcu : t.check_unique_constraint names v with s | u
      · simp only [hcu, Prod.mk.injEq, Option.some.injEq] at h
        obtain ⟨h1, h2⟩ := h
        subst h1
        refine ⟨0, Nat.succ_pos _, by simp [processTuples], rfl, by simp, ?_⟩
        exact Or.inr ⟨hlen, s, hcu, h2.symm⟩
      · simp only [hcu] at h
        obtain ⟨k, hk, hpt, hcols, hrows, hfail⟩ :=
          ih (t.insert_row names v) t' e h
        refine ⟨k + 1, Nat.succ_lt_succ hk, ?_, hcols, ?_, hfail⟩
        · show processTuples names t (v :: vs.take k) = (t', none)
          unfold processTuples
          rw [if_neg (not_not_intro hlen), hcu]
          exact hpt
        · rw [hrows]
          simp only [Table.insert_row, List.take_succ_cons, List.map_cons]
          rw [List.append_assoc]
          rfl

theorem wordsAux_nil_of_all_ws :
    ∀ (s : List Char), (∀ c ∈ s, isRustWhitespace c = true) →
    wordsAux s [] = [] := by
  intro s
  induction s with
  | nil => intro _; rfl
  | cons c cs ih =>
    intro h
    have hc : isRustWhitespace c = true := h c (List.mem_cons_self c cs)
    unfold wordsAux
    rw [if_pos hc, if_pos rfl]
    exact ih (fun x hx => h x (List.mem_cons_of_mem c hx))

theorem all_ws_of_wordsAux_nil :
    ∀ (s acc : List Char), wordsAux s acc = [] →
    (∀ c ∈ s, isRustWhitespace c = true) ∧ acc = [] := by
  intro s
  induction s with
  | nil =>
    intro acc h
    unfold wordsAux at h
    by_cases ha : acc = []
    · exact ⟨by simp, ha⟩
    · rw [if_neg ha] at h
      simp at h
  | cons c cs ih =>
    intro acc h
    unfold wordsAux at h
    by_cases hc : isRustWhitespace c = true
    · rw [if_pos hc] at h
      by_cases ha : acc = []
      · rw [if_pos ha] at h
        obtain ⟨hall, _⟩ := ih [] h
        exact ⟨fun x hx => by
          rcases List.mem_cons.mp hx with hx | hx
          · rw [hx]; exact hc
          · exact hall x hx, ha⟩
      · rw [if_neg ha] at h
        simp at h
    · rw [if_neg hc] at h
      obtain ⟨_, hacc⟩ := ih (c :: acc) h
      simp at hacc

/-! ## Claims -/

/-- C2 (amended): if the parser yields more than one statement,
`handle_sql_query` fails with the `SQLParseError` message carrying the
statement count, and the database is returned unchanged (no table
created or mutated); if the parser yields zero statements, the function
does not return at all (`ast.pop().unwrap()` panics), modelled as
`none`. -/
theorem multi_or_zero_statement_handling (ast : List Statement)
    (db : Database) :
    (1 < ast.length →
      handle_sql_query ast db =
        some (Except.error (NollaDBError.SQLParseError
          (multiStmtMsg ast.length)), db)) ∧
    (ast = [] → handle_sql_query ast db = none) := by
  constructor
  · intro h
    unfold handle_sql_query
    rw [if_pos h]
  · intro h
    subst h
    rfl

/-- C2 witness: a two-statement batch is rejected with the counting
message and the database untouched. -/
theorem multi_or_zero_statement_handling_witness :
    handle_sql_query [Statement.Query, Statement.Query] ⟨[]⟩ =
      some (Except.error (NollaDBError.SQLParseError (multiStmtMsg 2)),
        ⟨[]⟩) ∧
    handle_sql_query ([] : List Statement) ⟨[]⟩ = none :=
  ⟨(multi_or_zero_statement_handling [Statement.Query, Statement.Query]
      ⟨[]⟩).1 (by decide),
   (multi_or_zero_statement_handling [] ⟨[]⟩).2 rfl⟩

/-- C2 counterexample: on zero parsed statements the dispatcher panics
(`none`) instead of failing with the counting `SQLParseError`; the
claimed error return does not happen. -/
theorem zero_statements_panics :
    handle_sql_query ([] : List Statement) ⟨[]⟩ = none := rfl

/-- C8: a single SELECT, UPDATE or DELETE statement always succeeds and
leaves the database untouched, but the DELETE arm returns the message
"UPDATE statement done" (src/sql_query/mod.rs line 179), identical to
the UPDATE message, so the returned status string does not distinguish
DELETE from UPDATE. -/
theorem select_update_delete_ack_no_mutation (db : Database) :
    handle_sql_query [Statement.Query] db =
      some (Except.ok "SELECT statement done", db) ∧
    handle_sql_query [Statement.Update] db =
      some (Except.ok "UPDATE statement done", db) ∧
    handle_sql_query [Statement.Delete] db =
      some (Except.ok "UPDATE statement done", db) :=
  ⟨rfl, rfl, rfl⟩

/-- C9: `SQLQuery::new` classifies a command by its first
whitespace-separated token: create, select, insert, update and delete map
to the matching constructor and any other first token maps to `Unknown`,
each carrying the original command string. -/
theorem sqlquery_new_classifies_first_token (command first_cmd : String)
    (rest : List String) (h : argsOf command = first_cmd :: rest) :
    SQLQuery.new command =
      some (if first_cmd = "create" then SQLQuery.CreateTable command
        else if first_cmd = "select" then SQLQuery.Select command
        else if first_cmd = "insert" then SQLQuery.Insert command
        else if first_cmd = "update" then SQLQuery.Update command
        else if first_cmd = "delete" then SQLQuery.Delete command
        else SQLQuery.Unknown command) := by
  unfold SQLQuery.new
  rw [h]
  show some _ = _
  congr 1
  split
  · simp
  · simp
  · simp
  · simp
  · simp
  · rename_i h1 h2 h3 h4 h5
    rw [if_neg h1, if_neg h2, if_neg h3, if_neg h4, if_neg h5]

/-- C9 witness: concrete classifications of a known and an unknown
leading keyword, and of a command whose first token is preceded by a
form feed (U+000C), a separator for Rust `split_whitespace`. -/
theorem sqlquery_new_classifies_first_token_witness :
    SQLQuery.new "insert into t values (1)" =
      some (SQLQuery.Insert "insert into t values (1)") ∧
    SQLQuery.new "drop table t" =
      some (SQLQuery.Unknown "drop table t") ∧
    SQLQuery.new "\x0ccreate t" =
      some (SQLQuery.CreateTable "\x0ccreate t") :=
  ⟨by
    have h := sqlquery_new_classifies_first_token
      "insert into t values (1)" "insert" ["into", "t", "values", "(1)"]
      (by decide)
    simpa using h,
   by
    have h := sqlquery_new_classifies_first_token
      "drop table t" "drop" ["table", "t"] (by decide)
    simpa using h,
   by
    have h := sqlquery_new_classifies_first_token
      "\x0ccreate t" "create" ["t"] (by decide)
    simpa using h⟩

/-- C10: `SQLQuery::new` returns no value exactly on those command
strings that are empty or all whitespace (in the Unicode White_Space
sense of Rust `split_whitespace`): `args[0]` panics there, and whenever
a non-whitespace token exists the classification is returned. -/
theorem sqlquery_new_none_iff_whitespace (command : String) :
    SQLQuery.new command = none ↔
      ∀ c ∈ command.data, isRustWhitespace c = true := by
  constructor
  · intro h
    rcases hargs : (argsOf command).get? 0 with _ | first_cmd
    · have : argsOf command = [] := by
        rcases he : argsOf command with _ | ⟨a, l⟩
        · rfl
        · rw [he] at hargs
          simp at hargs
      unfold argsOf at this
      rw [List.map_eq_nil_iff] at this
      exact (all_ws_of_wordsAux_nil command.data [] this).1
    · have hsome : SQLQuery.new command ≠ none := by
        unfold SQLQuery.new
        simp only [hargs]
        simp
      exact absurd h hsome
  · intro h
    unfold SQLQuery.new
    have : wordsAux command.data [] = [] := wordsAux_nil_of_all_ws _ h
    unfold argsOf
    rw [this]
    rfl

/-- C10 witness: the empty command, an all-whitespace command, and a
form-feed-only command (U+000C, whitespace for Rust but outside the
ASCII space/tab/CR/LF set) yield no value; a command with a token yields
one. -/
theorem sqlquery_new_none_iff_whitespace_witness :
    SQLQuery.new "" = none ∧ SQLQuery.new " \t " = none ∧
    SQLQuery.new "\x0c" = none ∧ ¬ SQLQuery.new "x" = none :=
  ⟨(sqlquery_new_none_iff_whitespace "").mpr (by decide),
   (sqlquery_new_none_iff_whitespace " \t ").mpr (by decide),
   (sqlquery_new_none_iff_whitespace "\x0c").mpr (by decide),
   fun h => by
    have := (sqlquery_new_none_iff_whitespace "x").mp h
    exact absurd (this 'x' (by decide)) (by decide)⟩

/-- C3: a CREATE TABLE whose table name already exists (case-sensitive,
exact match) fails with the duplicate-table error and the database is
unchanged: no table is inserted, and the existing table is registered
under the name exactly as before the call. -/
theorem duplicate_table_rejected (cq : CreateQuery) (db : Database)
    (t : Table) (h : db.getTable cq.table_name = some t) :
    handle_sql_query [Statement.CreateTable (Except.ok cq)] db =
      some (Except.error (NollaDBError.Internal
        ("Can not create table, because table \x27" ++ cq.table_name
          ++ "\x27 already exists")), db) ∧
    db.getTable cq.table_name = some t := by
  have hhas := has_table_of_getTable db cq.table_name t h
  refine ⟨?_, h⟩
  rw [handle_single]
  simp only [handleStatement]
  rw [if_pos hhas]

/-- C3 witness: creating `users` again over a database that already has
it fails and leaves the registered table as it was. -/
theorem duplicate_table_rejected_witness :
    handle_sql_query
      [Statement.CreateTable (Except.ok ⟨"users", usersCols⟩)] usersDb =
      some (Except.error (NollaDBError.Internal
        ("Can not create table, because table \x27" ++ "users"
          ++ "\x27 already exists")), usersDb) ∧
    usersDb.getTable "users" = some usersTable0 :=
  duplicate_table_rejected ⟨"users", usersCols⟩ usersDb usersTable0 rfl

/-- C4: a valid single CREATE TABLE with a name not yet in the database
succeeds with the success message, and afterwards `has_table` is true
for that name and the registered table carries the declared columns in
declaration order (and no rows). -/
theorem create_table_success (cq : CreateQuery) (db : Database)
    (h : db.has_table cq.table_name = false) :
    handle_sql_query [Statement.CreateTable (Except.ok cq)] db =
      some (Except.ok "CREATE TABLE statement done",
        db.insertTable cq.table_name (Table.new cq)) ∧
    (db.insertTable cq.table_name (Table.new cq)).has_table
      cq.table_name = true ∧
    (db.insertTable cq.table_name (Table.new cq)).getTable
      cq.table_name = some { columns := cq.columns, rows := [] } := by
  have hget := getTable_insertTable_self db cq.table_name (Table.new cq)
  refine ⟨?_, has_table_of_getTable _ _ _ hget, hget⟩
  rw [handle_single]
  simp only [handleStatement]
  rw [if_neg (by rw [h]; simp)]

/-- C4 witness: creating `users` over the empty database makes it
visible with its two declared columns in order. -/
theorem create_table_success_witness :
    handle_sql_query
      [Statement.CreateTable (Except.ok ⟨"users", usersCols⟩)] ⟨[]⟩ =
      some (Except.ok "CREATE TABLE statement done",
        Database.insertTable ⟨[]⟩ "users" (Table.new ⟨"users", usersCols⟩)) ∧
    (Database.insertTable ⟨[]⟩ "users"
      (Table.new ⟨"users", usersCols⟩)).has_table "users" = true ∧
    (Database.insertTable ⟨[]⟩ "users"
      (Table.new ⟨"users", usersCols⟩)).getTable "users" =
      some { columns := usersCols, rows := [] } :=
  create_table_success ⟨"users", usersCols⟩ ⟨[]⟩ rfl

/-- C5: an INSERT naming a table that does not exist fails with the
unknown-table error and the database is unchanged. -/
theorem unknown_table_rejected (iq : InsertQuery) (db : Database)
    (h : db.has_table iq.table_name = false) :
    handle_sql_query [Statement.Insert (Except.ok iq)] db =
      some (Except.error (NollaDBError.Internal
        ("Table \x27" ++ iq.table_name ++ "\x27 does not exist")), db) := by
  rw [handle_single]
  simp only [handleStatement]
  rw [if_pos (by rw [h]; rfl)]

/-- C5 witness: the section 8 scenario INSERT INTO missing_table. -/
theorem unknown_table_rejected_witness :
    handle_sql_query [Statement.Insert (Except.ok
      ⟨"missing_table", ["id"], [[Value.integer 1]]⟩)] ⟨[]⟩ =
      some (Except.error (NollaDBError.Internal
        ("Table \x27" ++ "missing_table" ++ "\x27 does not exist")),
        ⟨[]⟩) :=
  unknown_table_rejected ⟨"missing_table", ["id"], [[Value.integer 1]]⟩
    ⟨[]⟩ rfl

/-- C6: an INSERT into an existing table with a named target column
absent from the schema fails with the unknown-column error; the check is
made once for the whole statement from the target-column list alone, so
the failure and the unchanged database hold for every value-tuple list
of the statement, before any tuple is examined or row appended. -/
theorem unknown_column_rejected (iq : InsertQuery) (db : Database)
    (t : Table) (ht : db.getTable iq.table_name = some t)
    (hcol : ∃ n ∈ iq.table_column_names, t.has_column n = false) :
    handle_sql_query [Statement.Insert (Except.ok iq)] db =
      some (Except.error (NollaDBError.Internal
        "Can not insert, because some of the columns do not exist"),
        db) := by
  have hhas := has_table_of_getTable db iq.table_name t ht
  have hall : (iq.table_column_names.all
      fun column_name => t.has_column column_name) = false := by
    rw [List.all_eq_false]
    obtain ⟨n, hn, hf⟩ := hcol
    exact ⟨n, hn, by simp [hf]⟩
  rw [handle_single]
  simp only [handleStatement]
  rw [if_neg (by rw [hhas]; simp)]
  simp only [ht]
  rw [if_pos (by rw [hall]; rfl)]

/-- C6 witness: inserting into a nonexistent `age` column of `users`
fails with the unknown-column error regardless of the tuple. -/
theorem unknown_column_rejected_witness :
    handle_sql_query [Statement.Insert (Except.ok
      ⟨"users", ["id", "age"], [[Value.integer 1, Value.integer 2]]⟩)]
      usersDb =
      some (Except.error (NollaDBError.Internal
        "Can not insert, because some of the columns do not exist"),
        usersDb) :=
  unknown_column_rejected
    ⟨"users", ["id", "age"], [[Value.integer 1, Value.integer 2]]⟩
    usersDb usersTable0 rfl ⟨"age", by decide, by decide⟩

/-- C7: for each value tuple the loop processes, an arity mismatch stops
with the error carrying both counts and no row appended; a
unique-constraint failure stops with the violation error and no row
appended; and the row for the tuple is appended (via `insert_row`)
exactly when both checks passed for that tuple. -/
theorem tuple_checks_before_append (names : List String) (t : Table)
    (v : List Value) (vs : List (List Value)) :
    (v.length ≠ names.length →
      processTuples names t (v :: vs) =
        (t, some (NollaDBError.Internal (toString v.length
          ++ " values for " ++ toString names.length ++ " columns")))) ∧
    (∀ s, v.length = names.length →
      t.check_unique_constraint names v = Except.error s →
      processTuples names t (v :: vs) =
        (t, some (NollaDBError.Internal
          ("Unique key constraint violation: " ++ s)))) ∧
    (v.length = names.length →
      t.check_unique_constraint names v = Except.ok () →
      processTuples names t (v :: vs) =
        processTuples names (t.insert_row names v) vs) := by
  refine ⟨?_, ?_, ?_⟩
  · intro hne
    unfold processTuples
    rw [if_pos hne]
  · intro s hl hcu
    unfold processTuples
    rw [if_neg (not_not_intro hl), hcu]
  · intro hl hcu
    conv_lhs => rw [processTuples]
    rw [if_neg (not_not_intro hl), hcu]

/-- C7 witness: a concrete arity mismatch (2 values for 1 column), a
concrete unique violation, and a concrete passing tuple that is
appended. -/
theorem tuple_checks_before_append_witness :
    processTuples ["id"] usersTable0 [[Value.integer 1, Value.integer 2]] =
      (usersTable0,
        some (NollaDBError.Internal "2 values for 1 columns")) ∧
    processTuples ["id", "name"] usersTable1
        [[Value.integer 1, Value.text "b"]] =
      (usersTable1, some (NollaDBError.Internal
        ("Unique key constraint violation: "
          ++ "duplicate value in unique column id"))) ∧
    processTuples ["id", "name"] usersTable0
        [[Value.integer 1, Value.text "a"]] =
      processTuples ["id", "name"]
        (usersTable0.insert_row ["id", "name"]
          [Value.integer 1, Value.text "a"]) [] :=
  ⟨(tuple_checks_before_append ["id"] usersTable0
      [Value.integer 1, Value.integer 2] []).1 (by decide),
   (tuple_checks_before_append ["id", "name"] usersTable1
      [Value.integer 1, Value.text "b"] []).2.1
      "duplicate value in unique column id" (by decide) rfl,
   (tuple_checks_before_append ["id", "name"] usersTable0
      [Value.integer 1, Value.text "a"] []).2.2 (by decide) rfl⟩

/-- C1: when an INSERT into an existing table with valid target columns
fails while processing its value tuples, the call returns the error of
the first failing tuple and the database keeps the table state `t2` in
which exactly the tuples before the failing one (some prefix of length k)
are committed as appended rows - no rollback - and the failing tuple's
check (arity or unique constraint) was evaluated against `t2` itself,
i.e. against all rows present at that point including the rows appended
by the earlier tuples of the same statement. -/
theorem insert_failure_keeps_committed_prefix (iq : InsertQuery)
    (db : Database) (t t2 : Table) (e : NollaDBError)
    (ht : db.getTable iq.table_name = some t)
    (hcols : (iq.table_column_names.all
      fun column_name => t.has_column column_name) = true)
    (hproc : processTuples iq.table_column_names t
      iq.table_column_values = (t2, some e)) :
    handle_sql_query [Statement.Insert (Except.ok iq)] db =
      some (Except.error e, db.insertTable iq.table_name t2) ∧
    (db.insertTable iq.table_name t2).getTable iq.table_name = some t2 ∧
    ∃ k, ∃ hk : k < iq.table_column_values.length,
      processTuples iq.table_column_names t
        (iq.table_column_values.take k) = (t2, none) ∧
      t2.columns = t.columns ∧
      t2.rows = t.rows ++ (iq.table_column_values.take k).map
        (mkRow t.columns iq.table_column_names) ∧
      tupleFails iq.table_column_names t2
        (iq.table_column_values.get ⟨k, hk⟩) e := by
  have hhas := has_table_of_getTable db iq.table_name t ht
  refine ⟨?_, getTable_insertTable_self db iq.table_name t2,
    processTuples_error_spine iq.table_column_names
      iq.table_column_values t t2 e hproc⟩
  rw [handle_single]
  simp only [handleStatement]
  rw [if_neg (by rw [hhas]; simp)]
  simp only [ht]
  rw [if_neg (by rw [hcols]; simp)]
  simp only [hproc]

/-- C1 witness: the section 8 scenario. INSERT INTO users (id, name)
VALUES (1, a), (1, b): the call fails with the unique violation on id,
yet the databases keeps the row of the first tuple (k = 1), and the
violation was found against the table already holding that row. -/
theorem insert_failure_keeps_committed_prefix_witness :
    handle_sql_query [Statement.Insert (Except.ok iqUsers)] usersDb =
      some (Except.error errUsers,
        usersDb.insertTable "users" usersTable1) ∧
    (usersDb.insertTable "users" usersTable1).getTable "users" =
      some usersTable1 ∧
    ∃ k, ∃ hk : k < 2,
      processTuples ["id", "name"] usersTable0
        (iqUsers.table_column_values.take k) = (usersTable1, none) ∧
      usersTable1.columns = usersTable0.columns ∧
      usersTable1.rows = usersTable0.rows ++
        (iqUsers.table_column_values.take k).map
          (mkRow usersTable0.columns ["id", "name"]) ∧
      tupleFails ["id", "name"] usersTable1
        (iqUsers.table_column_values.get ⟨k, hk⟩) errUsers :=
  insert_failure_keeps_committed_prefix iqUsers usersDb usersTable0
    usersTable1 errUsers rfl rfl rfl
